import Mathlib

/-
Shallow embedding of the client-side data layer of the editorial frontend
(`src/services/api.ts`, `src/pages/DashboardPage.tsx`, `src/pages/ArticlesPage.tsx`,
`src/pages/CategoriesPage.tsx` and the mirrored helpers in `src/__tests__`).

JavaScript values are modelled as follows: numbers that are used as ids or
counters are `Int`; `null`/`undefined` fields are `Option`; JS objects used as
string-keyed records or `Map`s are ordered association lists
`List (String × _)`; `String(x)` is `intToString`.  JS truthiness tests on a
string are `s ≠ ""`, on a number `n ≠ 0`, on `null`/`undefined` they are false.
-/

namespace Editorial

/-- Article lifecycle status (`src/types/index.ts`): exactly the three
enumerated values of the data-model invariant. -/
inductive ArticleStatus
  | draft
  | published
  | archived
deriving DecidableEq

/-- String form of a status, as it is stored in the JSON payload. -/
def statusToString : ArticleStatus → String
  | .draft => "draft"
  | .published => "published"
  | .archived => "archived"

/-- Distribution network (`src/types/index.ts`), restricted to the fields the
verified code touches. -/
structure Network where
  id : Int
  name : String
deriving DecidableEq

/-- Category (`src/types/index.ts`), restricted to the fields the verified
code touches. -/
structure Category where
  id : Int
  name : String
  color : Option String := none
deriving DecidableEq

/-- Article (`src/types/index.ts`), restricted to the fields the verified code
touches.  `categoryId` is the legacy scalar association, `categoryIds` the
list association; both optional, as in the TypeScript interface. -/
structure Article where
  id : Int
  title : String
  content : String
  status : ArticleStatus
  featured : Bool
  categoryId : Option Int := none
  categoryIds : Option (List Int) := none
  networkId : Option Int := none
  network : Option Network := none
  createdAt : Option String := none
deriving DecidableEq

/-- JS `String(n)` on a number. -/
def intToString (n : Int) : String := toString n

/-- Lookup in a string-keyed record / `Map` modelled as an ordered association
list: the first binding of the key wins (insertion discipline below keeps keys
unique, mirroring JS records and `Map`s). -/
def getParam : List (String × String) → String → Option String
  | [], _ => none
  | (k', v) :: rest, k => if k' = k then some v else getParam rest k

/-- `ArticleQueryParams` (`src/types/index.ts`): every field optional. -/
structure ArticleQueryParams where
  page : Option Int := none
  limit : Option Int := none
  search : Option String := none
  status : Option String := none
  categoryIds : Option (List Int) := none
  networkId : Option Int := none
  featured : Option Bool := none
  sortBy : Option String := none
  sortDir : Option String := none

/-- One `if (cond) q.key = value` line of `buildArticleParams`: either a
single binding or nothing. -/
def paramEntry (k : String) (v? : Option String) : List (String × String) :=
  match v? with
  | some v => [(k, v)]
  | none => []

/-- JS string truthiness under `if (params.s) q.s = params.s`: a present,
non-empty string passes; `""`, `null`, `undefined` are dropped. -/
def strTruthy : Option String → Option String
  | some s => if s = "" then none else some s
  | none => none

/-- `buildArticleParams` (`src/services/api.ts`, lines 55-69).  Each
`paramEntry` line is one `if (...) q.x = ...` statement of the source, in
source order:
* `if (params.page != null) q.page = String(params.page)`
* `if (params.limit != null) q.limit = String(params.limit)`
* `if (params.search) q.search = params.search`
* `if (params.status) q.status = params.status`
* `if (params.networkId != null) q.networkId = String(params.networkId)`
* `if (params.featured) q.featured = 'true'`
* `if (params.sortBy) q.sortBy = params.sortBy`
* `if (params.sortDir) q.sortDir = params.sortDir`
* `if (params.categoryIds && params.categoryIds.length > 0)
     q.categoryIds = params.categoryIds.join(',')`
-/
def buildArticleParams (p : ArticleQueryParams) : List (String × String) :=
  paramEntry "page" (p.page.map intToString)
  ++ paramEntry "limit" (p.limit.map intToString)
  ++ paramEntry "search" (strTruthy p.search)
  ++ paramEntry "status" (strTruthy p.status)
  ++ paramEntry "networkId" (p.networkId.map intToString)
  ++ paramEntry "featured" (match p.featured with | some true => some "true" | _ => none)
  ++ paramEntry "sortBy" (strTruthy p.sortBy)
  ++ paramEntry "sortDir" (strTruthy p.sortDir)
  ++ paramEntry "categoryIds"
      (match p.categoryIds with
       | some (c :: cs) => some (String.intercalate "," ((c :: cs).map intToString))
       | _ => none)

theorem getParam_entry_some (k : String) (v : String) (rest : List (String × String)) :
    getParam (paramEntry k (some v) ++ rest) k = some v := by
  simp [paramEntry, getParam]

theorem getParam_entry_none (k : String) (rest : List (String × String)) :
    getParam (paramEntry k none ++ rest) k = getParam rest k := by
  simp [paramEntry]

theorem getParam_entry_ne (k' k : String) (v? : Option String)
    (rest : List (String × String)) (h : k' ≠ k) :
    getParam (paramEntry k' v? ++ rest) k = getParam rest k := by
  cases v? <;> simp [paramEntry, getParam, h]

theorem getParam_entry_self (k : String) (v? : Option String)
    (rest : List (String × String)) (hrest : getParam rest k = none) :
    getParam (paramEntry k v? ++ rest) k = v? := by
  cases v? with
  | some v => exact getParam_entry_some k v rest
  | none => rw [getParam_entry_none, hrest]

theorem getParam_entry_self' (k : String) (v? : Option String) :
    getParam (paramEntry k v?) k = v? := by
  cases v? <;> simp [paramEntry, getParam]

theorem getParam_entry_ne' (k' k : String) (v? : Option String) (h : k' ≠ k) :
    getParam (paramEntry k' v?) k = none := by
  cases v? <;> simp [paramEntry, getParam, h]

/-- Claim C1: `buildArticleParams` is omission-correct.  For every query:
`page`/`networkId` equal to `0` are emitted with string value `"0"` (lookup of
each numeric key returns exactly the decimal string of the present value);
`search`/`status` equal to `""` are omitted; `featured` is emitted only when
`true`, always as the literal string `"true"`; an empty `categoryIds` list is
omitted while a non-empty one is emitted as its elements joined by a literal
comma in original order; and a key is never emitted for an absent field (the
lookup of every key of an absent field is `none`, never `some ""`). -/
theorem buildArticleParams_omission_correct (p : ArticleQueryParams) :
    getParam (buildArticleParams p) "page" = p.page.map intToString
    ∧ getParam (buildArticleParams p) "limit" = p.limit.map intToString
    ∧ getParam (buildArticleParams p) "search" = strTruthy p.search
    ∧ getParam (buildArticleParams p) "status" = strTruthy p.status
    ∧ getParam (buildArticleParams p) "networkId" = p.networkId.map intToString
    ∧ getParam (buildArticleParams p) "featured"
        = (match p.featured with | some true => some "true" | _ => none)
    ∧ getParam (buildArticleParams p) "sortBy" = strTruthy p.sortBy
    ∧ getParam (buildArticleParams p) "sortDir" = strTruthy p.sortDir
    ∧ getParam (buildArticleParams p) "categoryIds"
        = (match p.categoryIds with
           | some (c :: cs) => some (String.intercalate "," ((c :: cs).map intToString))
           | _ => none)
    ∧ (p.page = some 0 → getParam (buildArticleParams p) "page" = some "0")
    ∧ (p.networkId = some 0 → getParam (buildArticleParams p) "networkId" = some "0")
    ∧ (p.search = some "" → getParam (buildArticleParams p) "search" = none)
    ∧ (p.status = some "" → getParam (buildArticleParams p) "status" = none)
    ∧ (p.featured = some false → getParam (buildArticleParams p) "featured" = none)
    ∧ (p.featured = some true → getParam (buildArticleParams p) "featured" = some "true")
    ∧ (p.categoryIds = some [] → getParam (buildArticleParams p) "categoryIds" = none) := by
  have h1 : getParam (buildArticleParams p) "page" = p.page.map intToString := by
    simp only [buildArticleParams, List.append_assoc]
    apply getParam_entry_self
    rw [getParam_entry_ne _ _ _ _ (by decide), getParam_entry_ne _ _ _ _ (by decide),
        getParam_entry_ne _ _ _ _ (by decide), getParam_entry_ne _ _ _ _ (by decide),
        getParam_entry_ne _ _ _ _ (by decide), getParam_entry_ne _ _ _ _ (by decide),
        getParam_entry_ne _ _ _ _ (by decide)]
    exact getParam_entry_ne' _ _ _ (by decide)
  have h2 : getParam (buildArticleParams p) "limit" = p.limit.map intToString := by
    simp only [buildArticleParams, List.append_assoc]
    rw [getParam_entry_ne _ _ _ _ (by decide)]
    apply getParam_entry_self
    rw [getParam_entry_ne _ _ _ _ (by decide), getParam_entry_ne _ _ _ _ (by decide),
        getParam_entry_ne _ _ _ _ (by decide), getParam_entry_ne _ _ _ _ (by decide),
        getParam_entry_ne _ _ _ _ (by decide), getParam_entry_ne _ _ _ _ (by decide)]
    exact getParam_entry_ne' _ _ _ (by decide)
  have h3 : getParam (buildArticleParams p) "search" = strTruthy p.search := by
    simp only [buildArticleParams, List.append_assoc]
    rw [getParam_entry_ne _ _ _ _ (by decide), getParam_entry_ne _ _ _ _ (by decide)]
    apply getParam_entry_self
    rw [getParam_entry_ne _ _ _ _ (by decide), getParam_entry_ne _ _ _ _ (by decide),
        getParam_entry_ne _ _ _ _ (by decide), getParam_entry_ne _ _ _ _ (by decide),
        getParam_entry_ne _ _ _ _ (by decide)]
    exact getParam_entry_ne' _ _ _ (by decide)
  have h4 : getParam (buildArticleParams p) "status" = strTruthy p.status := by
    simp only [buildArticleParams, List.append_assoc]
    rw [getParam_entry_ne _ _ _ _ (by decide), getParam_entry_ne _ _ _ _ (by decide),
        getParam_entry_ne _ _ _ _ (by decide)]
    apply getParam_entry_self
    rw [getParam_entry_ne _ _ _ _ (by decide), getParam_entry_ne _ _ _ _ (by decide),
        getParam_entry_ne _ _ _ _ (by decide), getParam_entry_ne _ _ _ _ (by decide)]
    exact getParam_entry_ne' _ _ _ (by decide)
  have h5 : getParam (buildArticleParams p) "networkId" = p.networkId.map intToString := by
    simp only [buildArticleParams, List.append_assoc]
    rw [getParam_entry_ne _ _ _ _ (by decide), getParam_entry_ne _ _ _ _ (by decide),
        getParam_entry_ne _ _ _ _ (by decide), getParam_entry_ne _ _ _ _ (by decide)]
    apply getParam_entry_self
    rw [getParam_entry_ne _ _ _ _ (by decide), getParam_entry_ne _ _ _ _ (by decide),
        getParam_entry_ne _ _ _ _ (by decide)]
    exact getParam_entry_ne' _ _ _ (by decide)
  have h6 : getParam (buildArticleParams p) "featured"
      = (match p.featured with | some true => some "true" | _ => none) := by
    simp only [buildArticleParams, List.append_assoc]
    rw [getParam_entry_ne _ _ _ _ (by decide), getParam_entry_ne _ _ _ _ (by decide),
        getParam_entry_ne _ _ _ _ (by decide), getParam_entry_ne _ _ _ _ (by decide),
        getParam_entry_ne _ _ _ _ (by decide)]
    apply getParam_entry_self
    rw [getParam_entry_ne _ _ _ _ (by decide), getParam_entry_ne _ _ _ _ (by decide)]
    exact getParam_entry_ne' _ _ _ (by decide)
  have h7 : getParam (buildArticleParams p) "sortBy" = strTruthy p.sortBy := by
    simp only [buildArticleParams, List.append_assoc]
    rw [getParam_entry_ne _ _ _ _ (by decide), getParam_entry_ne _ _ _ _ (by decide),
        getParam_entry_ne _ _ _ _ (by decide), getParam_entry_ne _ _ _ _ (by decide),
        getParam_entry_ne _ _ _ _ (by decide), getParam_entry_ne _ _ _ _ (by decide)]
    apply getParam_entry_self
    rw [getParam_entry_ne _ _ _ _ (by decide)]
    exact getParam_entry_ne' _ _ _ (by decide)
  have h8 : getParam (buildArticleParams p) "sortDir" = strTruthy p.sortDir := by
    simp only [buildArticleParams, List.append_assoc]
    rw [getParam_entry_ne _ _ _ _ (by decide), getParam_entry_ne _ _ _ _ (by decide),
        getParam_entry_ne _ _ _ _ (by decide), getParam_entry_ne _ _ _ _ (by decide),
        getParam_entry_ne _ _ _ _ (by decide), getParam_entry_ne _ _ _ _ (by decide),
        getParam_entry_ne _ _ _ _ (by decide)]
    apply getParam_entry_self
    exact getParam_entry_ne' _ _ _ (by decide)
  have h9 : getParam (buildArticleParams p) "categoryIds"
      = (match p.categoryIds with
         | some (c :: cs) => some (String.intercalate "," ((c :: cs).map intToString))
         | _ => none) := by
    simp only [buildArticleParams, List.append_assoc]
    rw [getParam_entry_ne _ _ _ _ (by decide), getParam_entry_ne _ _ _ _ (by decide),
        getParam_entry_ne _ _ _ _ (by decide), getParam_entry_ne _ _ _ _ (by decide),
        getParam_entry_ne _ _ _ _ (by decide), getParam_entry_ne _ _ _ _ (by decide),
        getParam_entry_ne _ _ _ _ (by decide), getParam_entry_ne _ _ _ _ (by decide)]
    exact getParam_entry_self' _ _
  refine ⟨h1, h2, h3, h4, h5, h6, h7, h8, h9, ?_, ?_, ?_, ?_, ?_, ?_, ?_⟩
  · intro h; rw [h1, h]; rfl
  · intro h; rw [h5, h]; rfl
  · intro h; rw [h3, h]; rfl
  · intro h; rw [h4, h]; rfl
  · intro h; rw [h6, h]
  · intro h; rw [h6, h]
  · intro h; rw [h9, h]

/-- Witness for C1, on Scenario 1 of the spec:
`{page: 0, limit: 20, featured: false, search: ""}` yields `page = "0"`,
`limit = "20"`, and no `search`/`featured` keys. -/
theorem buildArticleParams_omission_correct_witness :
    getParam (buildArticleParams
        { page := some 0, limit := some 20, featured := some false, search := some "" })
      "page" = some "0"
    ∧ getParam (buildArticleParams
        { page := some 0, limit := some 20, featured := some false, search := some "" })
      "limit" = some "20"
    ∧ getParam (buildArticleParams
        { page := some 0, limit := some 20, featured := some false, search := some "" })
      "search" = none
    ∧ getParam (buildArticleParams
        { page := some 0, limit := some 20, featured := some false, search := some "" })
      "featured" = none := by
  obtain ⟨h1, h2, h3, -, -, -, -, -, -, hp0, -, hs, -, hf, -, -⟩ :=
    buildArticleParams_omission_correct
      { page := some 0, limit := some 20, featured := some false, search := some "" }
  exact ⟨hp0 rfl, by rw [h2]; rfl, hs rfl, hf rfl⟩

/-- `total` count of the dashboard stats (`src/pages/DashboardPage.tsx`,
line 122): `articles.length`. -/
def statsTotal (arts : List Article) : Nat := arts.length

/-- `published` count (`DashboardPage.tsx`, line 123). -/
def statsPublished (arts : List Article) : Nat :=
  (arts.filter (fun a => a.status == ArticleStatus.published)).length

/-- `draft` count (`DashboardPage.tsx`, line 124). -/
def statsDraft (arts : List Article) : Nat :=
  (arts.filter (fun a => a.status == ArticleStatus.draft)).length

/-- `archived` count (`DashboardPage.tsx`, line 125). -/
def statsArchived (arts : List Article) : Nat :=
  (arts.filter (fun a => a.status == ArticleStatus.archived)).length

/-- Claim C6: for every article collection whose statuses are among the three
enumerated values (enforced here by the `ArticleStatus` type, the data-model
invariant), the aggregate statistics satisfy
`published + draft + archived = total`, `total` being the collection length. -/
theorem stats_partition (arts : List Article) :
    statsPublished arts + statsDraft arts + statsArchived arts = statsTotal arts := by
  induction arts with
  | nil => rfl
  | cons a t ih =>
    cases h : a.status <;>
      simp [statsPublished, statsDraft, statsArchived, statsTotal,
            List.filter_cons, h] at ih ⊢ <;>
      omega

/-- Generic lookup in a string-keyed association list (the model of a JS
`Map<string, T>` / record): the first binding of the key wins. -/
def assocGet {β : Type} : List (String × β) → String → Option β
  | [], _ => none
  | (k', v) :: rest, k => if k' = k then some v else assocGet rest k

/-- JS `Map.prototype.set`: updates an existing key in place (keeping its
position), otherwise appends a fresh binding at the end. -/
def mapSet {β : Type} (m : List (String × β)) (k : String) (v : β) :
    List (String × β) :=
  if ∃ kv ∈ m, kv.1 = k then
    m.map (fun kv => if kv.1 = k then (k, v) else kv)
  else m ++ [(k, v)]

theorem assocGet_append_of_none {β : Type} (m₁ m₂ : List (String × β)) (k : String)
    (h : assocGet m₁ k = none) : assocGet (m₁ ++ m₂) k = assocGet m₂ k := by
  induction m₁ with
  | nil => rfl
  | cons hd tl ih =>
    by_cases hh : hd.1 = k
    · simp [assocGet, hh] at h
    · simp only [assocGet, hh, if_neg, if_false] at h
      simpa [assocGet, hh] using ih h

theorem assocGet_append_of_some {β : Type} (m₁ m₂ : List (String × β)) (k : String)
    (v : β) (h : assocGet m₁ k = some v) : assocGet (m₁ ++ m₂) k = some v := by
  induction m₁ with
  | nil => simp [assocGet] at h
  | cons hd tl ih =>
    by_cases hh : hd.1 = k
    · simp only [assocGet, hh, if_pos] at h
      simp [assocGet, hh, h]
    · simp only [assocGet, hh, if_neg, if_false] at h
      simpa [assocGet, hh] using ih h

theorem assocGet_map_update_self {β : Type} (m : List (String × β)) (k : String)
    (v : β) : assocGet (m.map (fun kv => if kv.1 = k then (k, v) else kv)) k
      = if ∃ kv ∈ m, kv.1 = k then some v else none := by
  induction m with
  | nil => rfl
  | cons hd tl ih =>
    obtain ⟨k₀, v₀⟩ := hd
    simp only [List.map_cons]
    by_cases h : k₀ = k
    · rw [if_pos h]
      simp [assocGet, h]
    · rw [if_neg h]
      have hcons : (∃ kv ∈ ((k₀, v₀) :: tl), kv.1 = k) ↔ (∃ kv ∈ tl, kv.1 = k) := by
        simp [h]
      simp only [assocGet, h, ih, if_false, if_neg]
      exact (if_congr hcons rfl rfl).symm

theorem assocGet_map_update_ne {β : Type} (m : List (String × β)) (k k' : String)
    (v : β) (h : k' ≠ k) :
    assocGet (m.map (fun kv => if kv.1 = k then (k, v) else kv)) k' = assocGet m k' := by
  induction m with
  | nil => rfl
  | cons hd tl ih =>
    obtain ⟨k₀, v₀⟩ := hd
    simp only [List.map_cons]
    by_cases hh : k₀ = k
    · rw [if_pos hh]
      have h1 : k₀ ≠ k' := by rw [hh]; exact Ne.symm h
      simp [assocGet, h1, Ne.symm h, ih]
    · rw [if_neg hh]
      by_cases hk' : k₀ = k'
      · simp [assocGet, hk']
      · simp [assocGet, hk', ih]

theorem assocGet_none_of_not_mem {β : Type} (m : List (String × β)) (k : String)
    (h : ¬ ∃ kv ∈ m, kv.1 = k) : assocGet m k = none := by
  induction m with
  | nil => rfl
  | cons hd tl ih =>
    by_cases hh : hd.1 = k
    · exact absurd ⟨hd, List.mem_cons_self hd tl, hh⟩ h
    · simp only [assocGet, hh, if_neg, if_false]
      exact ih (fun ⟨kv, hm, hk⟩ => h ⟨kv, List.mem_cons_of_mem hd hm, hk⟩)

theorem assocGet_mapSet_self {β : Type} (m : List (String × β)) (k : String) (v : β) :
    assocGet (mapSet m k v) k = some v := by
  unfold mapSet
  by_cases h : ∃ kv ∈ m, kv.1 = k
  · rw [if_pos h, assocGet_map_update_self, if_pos h]
  · rw [if_neg h, assocGet_append_of_none _ _ _ (assocGet_none_of_not_mem m k h)]
    simp [assocGet]

theorem assocGet_mapSet_ne {β : Type} (m : List (String × β)) (k k' : String) (v : β)
    (h : k' ≠ k) : assocGet (mapSet m k v) k' = assocGet m k' := by
  unfold mapSet
  by_cases ha : ∃ kv ∈ m, kv.1 = k
  · rw [if_pos ha, assocGet_map_update_ne _ _ _ _ h]
  · rw [if_neg ha]
    cases hc : assocGet m k' with
    | some w => exact assocGet_append_of_some _ _ _ _ hc
    | none =>
      rw [assocGet_append_of_none _ _ _ hc]
      simp [assocGet, Ne.symm h]

/-- `buildCategoryMap` (`src/pages/ArticlesPage.tsx`):
`new Map(categories.map(c => [String(c.id), c]))`; later duplicate ids
overwrite earlier ones, as with successive `Map.set` calls. -/
def buildCategoryMap (categories : List Category) : List (String × Category) :=
  categories.foldl (fun m c => mapSet m (intToString c.id) c) []

/-- `resolveCategory` (`src/pages/ArticlesPage.tsx`, part_010 lines 646-651):
```
const ids = article.categoryIds?.map(String) ?? [];
if (ids.length > 0) return catMap.get(ids[0]) ?? null;
if (article.categoryId != null) return catMap.get(String(article.categoryId)) ?? null;
return null;
```
-/
def resolveCategory (article : Article) (catMap : List (String × Category)) :
    Option Category :=
  let ids := (article.categoryIds.getD []).map intToString
  match ids with
  | id0 :: _ => assocGet catMap id0
  | [] =>
    match article.categoryId with
    | some cid => assocGet catMap (intToString cid)
    | none => none

/-- Claim C2: category resolution precedence.  For every article and lookup
table: a non-empty `categoryIds` list wins and its first element is the key
used (whatever the legacy scalar holds); an absent or empty list falls back to
the legacy scalar `categoryId`; with neither present there is no association;
and a resolved key that misses the table yields `none` (the function is total,
so it never throws). -/
theorem resolveCategory_precedence (article : Article)
    (catMap : List (String × Category)) :
    (∀ i rest, article.categoryIds = some (i :: rest) →
        resolveCategory article catMap = assocGet catMap (intToString i))
    ∧ ((article.categoryIds = none ∨ article.categoryIds = some []) →
        resolveCategory article catMap
          = article.categoryId.bind (fun cid => assocGet catMap (intToString cid)))
    ∧ ((article.categoryIds = none ∨ article.categoryIds = some []) →
        article.categoryId = none → resolveCategory article catMap = none) := by
  refine ⟨?_, ?_, ?_⟩
  · intro i rest h
    simp [resolveCategory, h]
  · rintro (h | h) <;> cases hc : article.categoryId <;>
      simp [resolveCategory, h, hc]
  · rintro (h | h) hc <;> simp [resolveCategory, h, hc]

/-- Witness for C2: with both a non-empty list `[2]` and a scalar `1` present
the list wins; an empty-list article falls back to the scalar; a miss of the
table yields `none`. -/
theorem resolveCategory_precedence_witness :
    resolveCategory
        { id := 10, title := "t", content := "c", status := ArticleStatus.draft,
          featured := false, categoryId := some 1, categoryIds := some [2] }
        [("1", { id := 1, name := "Politics" }), ("2", { id := 2, name := "Sports" })]
      = some { id := 2, name := "Sports" }
    ∧ resolveCategory
        { id := 11, title := "t", content := "c", status := ArticleStatus.draft,
          featured := false, categoryId := some 1, categoryIds := some [] }
        [("1", { id := 1, name := "Politics" })]
      = some { id := 1, name := "Politics" }
    ∧ resolveCategory
        { id := 12, title := "t", content := "c", status := ArticleStatus.draft,
          featured := false, categoryId := none, categoryIds := some [3] }
        [("1", { id := 1, name := "Politics" })]
      = none := by
  refine ⟨?_, ?_, ?_⟩
  · rw [(resolveCategory_precedence _ _).1 2 [] rfl]; rfl
  · rw [(resolveCategory_precedence _ _).2.1 (Or.inr rfl)]; rfl
  · rw [(resolveCategory_precedence _ _).1 3 [] rfl]; rfl

/-- `getArticleCategoryIds` (`src/pages/DashboardPage.tsx`, lines 95-99):
```
if (article.categoryIds && article.categoryIds.length > 0) return article.categoryIds;
if (article.categoryId != null) return [article.categoryId];
return [];
```
(a JS array is always truthy, so the first guard means: present and non-empty).
-/
def getArticleCategoryIds (article : Article) : List Int :=
  match article.categoryIds with
  | some (c :: cs) => c :: cs
  | _ =>
    match article.categoryId with
    | some cid => [cid]
    | none => []

/-- One `catCountMap.set(key, (catCountMap.get(key) ?? 0) + 1)` step of the
pie-data aggregation (`DashboardPage.tsx`, line 143). -/
def bumpKey (m : List (String × Nat)) (k : String) : List (String × Nat) :=
  mapSet m k ((assocGet m k).getD 0 + 1)

/-- Per-article inner `forEach` of the pie-data aggregation
(`DashboardPage.tsx`, lines 141-144): bump the count of `String(cid)` for
every id of `getArticleCategoryIds(a)`. -/
def catCountStep (m : List (String × Nat)) (a : Article) : List (String × Nat) :=
  ((getArticleCategoryIds a).map intToString).foldl bumpKey m

/-- `catCountMap` (`DashboardPage.tsx`, lines 139-145): the per-category-key
count map over the whole article collection. -/
def catCountFold (arts : List Article) : List (String × Nat) :=
  arts.foldl catCountStep []

theorem bump_foldl_get (ks : List String) (m : List (String × Nat)) (k : String) :
    (assocGet (ks.foldl bumpKey m) k).getD 0
      = (assocGet m k).getD 0 + ks.count k := by
  induction ks generalizing m with
  | nil => simp
  | cons k₀ ks ih =>
    rw [List.foldl_cons, ih]
    by_cases h : k₀ = k
    · subst h
      rw [show assocGet (bumpKey m k₀) k₀ = some ((assocGet m k₀).getD 0 + 1) from
            assocGet_mapSet_self m k₀ _]
      simp [List.count_cons]
      omega
    · rw [show assocGet (bumpKey m k₀) k = assocGet m k from
            assocGet_mapSet_ne m k₀ k _ (Ne.symm h)]
      simp [List.count_cons, h, Ne.symm h]

theorem catCountFold_get_general (arts : List Article) (m : List (String × Nat))
    (k : String) :
    (assocGet (arts.foldl catCountStep m) k).getD 0
      = (assocGet m k).getD 0
        + (arts.map (fun a => ((getArticleCategoryIds a).map intToString).count k)).sum := by
  induction arts generalizing m with
  | nil => simp
  | cons a t ih =>
    rw [List.foldl_cons, ih, catCountStep, bump_foldl_get]
    simp
    omega

theorem catCountFold_get (arts : List Article) (k : String) :
    (assocGet (catCountFold arts) k).getD 0
      = (arts.map (fun a => ((getArticleCategoryIds a).map intToString).count k)).sum := by
  rw [catCountFold, catCountFold_get_general]
  simp [assocGet]

/-- Claim C3: in the pie-data aggregate, an article whose resolved category
key list is `[kA, kB]` (two distinct keys) contributes exactly one unit to
group `kA`'s count and exactly one unit to group `kB`'s count: adding the
article anywhere in the collection raises both groups' counts by exactly 1. -/
theorem pieData_multi_category_unit_counts (pre post : List Article) (a : Article)
    (kA kB : String) (hne : kA ≠ kB)
    (hres : (getArticleCategoryIds a).map intToString = [kA, kB]) :
    (assocGet (catCountFold (pre ++ a :: post)) kA).getD 0
        = (assocGet (catCountFold (pre ++ post)) kA).getD 0 + 1
    ∧ (assocGet (catCountFold (pre ++ a :: post)) kB).getD 0
        = (assocGet (catCountFold (pre ++ post)) kB).getD 0 + 1 := by
  constructor <;>
  · rw [catCountFold_get, catCountFold_get]
    simp [List.map_append, hres, List.count_cons, hne, Ne.symm hne]
    omega

/-- Concrete article of Scenario 4: `categoryIds: [1, 3]`. -/
def sampleMultiCat : Article :=
  { id := 1, title := "t", content := "c", status := ArticleStatus.published,
    featured := false, categoryIds := some [1, 3] }

/-- Witness for C3 (Scenario 4 shape): an article with `categoryIds: [1, 3]`
adds one unit to key `"1"` and one unit to key `"3"`. -/
theorem pieData_multi_category_unit_counts_witness :
    (assocGet (catCountFold [sampleMultiCat]) "1").getD 0
      = (assocGet (catCountFold ([] : List Article)) "1").getD 0 + 1
    ∧ (assocGet (catCountFold [sampleMultiCat]) "3").getD 0
      = (assocGet (catCountFold ([] : List Article)) "3").getD 0 + 1 := by
  exact pieData_multi_category_unit_counts [] [] sampleMultiCat "1" "3"
    (by decide) (by decide)

/-- The category cell of the articles table
(`src/services/api.ts` ArticlesPage variant, lines 584-586):
```
const firstId = article.categoryIds?.[0]
  ?? (article.categoryId ? String(article.categoryId) : undefined);
const cat = firstId ? categoryMap[firstId] : null;
```
returns the effective lookup key, `none` when the cell shows no category.
Both the scalar guard and the `firstId ?` guard are JS truthiness tests, so a
numeric id `0` is dropped. -/
def articleCellCategoryKey (article : Article) : Option String :=
  let firstId : Option Int :=
    match article.categoryIds with
    | some (c :: _) => some c
    | _ =>
      match article.categoryId with
      | some cid => if cid ≠ 0 then some cid else none
      | none => none
  match firstId with
  | some i => if i ≠ 0 then some (intToString i) else none
  | none => none

/-- Claim C10: for an article with an absent or empty `categoryIds` list and
legacy scalar `categoryId = 0`, the two category-resolution call sites
disagree: the articles-table cell (truthiness test on the scalar) resolves no
key and shows nothing, while the dashboard's `getArticleCategoryIds`
(`!= null` test) returns `[0]`, so the article is counted under key `"0"` in
the pie-data aggregate. -/
theorem category_callsite_divergence (a : Article)
    (hlist : a.categoryIds = none ∨ a.categoryIds = some [])
    (hscalar : a.categoryId = some 0) :
    articleCellCategoryKey a = none
    ∧ getArticleCategoryIds a = [0]
    ∧ ∀ pre post : List Article,
        (assocGet (catCountFold (pre ++ a :: post)) "0").getD 0
          = (assocGet (catCountFold (pre ++ post)) "0").getD 0 + 1 := by
  have hids : getArticleCategoryIds a = [0] := by
    rcases hlist with h | h <;> simp [getArticleCategoryIds, h, hscalar]
  refine ⟨?_, hids, ?_⟩
  · rcases hlist with h | h <;> simp [articleCellCategoryKey, h, hscalar]
  · intro pre post
    rw [catCountFold_get, catCountFold_get]
    have h0 : ([0] : List Int).map intToString = ["0"] := by decide
    simp [List.map_append, hids, h0, List.count_cons]
    omega

/-- Concrete article with a zero legacy scalar and no list. -/
def sampleZeroScalar : Article :=
  { id := 7, title := "t", content := "c", status := ArticleStatus.draft,
    featured := false, categoryId := some 0 }

/-- Witness for C10: the concrete article `{categoryId: 0}` is invisible in
the table cell yet counted once under `"0"` in the aggregate. -/
theorem category_callsite_divergence_witness :
    articleCellCategoryKey sampleZeroScalar = none
    ∧ getArticleCategoryIds sampleZeroScalar = [0]
    ∧ (assocGet (catCountFold [sampleZeroScalar]) "0").getD 0
      = (assocGet (catCountFold ([] : List Article)) "0").getD 0 + 1 := by
  obtain ⟨h1, h2, h3⟩ := category_callsite_divergence sampleZeroScalar
    (Or.inl rfl) rfl
  exact ⟨h1, h2, h3 [] []⟩

/-- JS `s.toLowerCase()`, modelled character-wise. -/
def strToLower (s : String) : String := String.mk (s.data.map Char.toLower)

/-- The needle is an initial segment of the hay. -/
def isPrefSub : List Char → List Char → Bool
  | [], _ => true
  | _ :: _, [] => false
  | a :: as, b :: bs => a == b && isPrefSub as bs

/-- The needle occurs contiguously somewhere in the hay. -/
def subIncl (needle : List Char) : List Char → Bool
  | [] => isPrefSub needle []
  | c :: t => isPrefSub needle (c :: t) || subIncl needle t

/-- JS `hay.includes(needle)`: contiguous substring test. -/
def strIncludes (hay needle : String) : Bool := subIncl needle.data hay.data

theorem subIncl_nil (l : List Char) : subIncl [] l = true := by
  cases l <;> simp [subIncl, isPrefSub]

theorem strIncludes_empty (s : String) : strIncludes s "" = true :=
  subIncl_nil s.data

/-- The search step of the filter chain in `src/pages/ArticlesPage.tsx`
(part_010, lines 704-710):
```
if (search) {
  const q = search.toLowerCase();
  list = list.filter(a =>
    a.title.toLowerCase().includes(q) ||
    (a.content?.toLowerCase().includes(q))
  );
}
```
-/
def searchStep (search : String) (list : List Article) : List Article :=
  if search ≠ "" then
    list.filter (fun a =>
      strIncludes (strToLower a.title) (strToLower search)
      || strIncludes (strToLower a.content) (strToLower search))
  else list

/-- The `filtered` collection of the ArticlesPage variant embedded in
`src/services/api.ts` (lines 479-483):
```
const filtered = articles.filter((a) => {
  const matchSearch = a.title.toLowerCase().includes(search.toLowerCase());
  const matchStatus = statusFilter === 'all' || a.status === statusFilter;
  return matchSearch && matchStatus;
});
```
`statusFilter = none` models the `'all'` choice. -/
def legacyFiltered (search : String) (statusFilter : Option ArticleStatus)
    (articles : List Article) : List Article :=
  articles.filter (fun a =>
    strIncludes (strToLower a.title) (strToLower search)
    && (match statusFilter with | none => true | some s => a.status == s))

/-- Concrete article whose content, but not title, contains the search
string. -/
def sampleContentMatch : Article :=
  { id := 2, title := "A", content := "the needle body",
    status := ArticleStatus.draft, featured := false }

/-- Counterexample to C10-adjacent claim C4 as stated: the claim asserts that
THE search filter (citing both call sites) keeps every article whose title OR
content contains the search string; but the ArticlesPage variant embedded in
`src/services/api.ts` matches the title only, so an article whose content
alone contains `"needle"` is dropped there. -/
theorem search_filter_claim_counterexample :
    strIncludes (strToLower sampleContentMatch.content) (strToLower "needle") = true
    ∧ legacyFiltered "needle" none [sampleContentMatch] = [] := by
  exact ⟨by decide, by decide⟩

/-- Claim C4 (amended): the part_010 ArticlesPage search step keeps exactly
those articles whose title OR content contains the (non-empty) search string
case-insensitively, and an empty search keeps every article unchanged; the
older ArticlesPage variant embedded in `src/services/api.ts` instead matches
the title only (still case-insensitive, empty search still a no-op). -/
theorem search_filter_membership (search : String) (l : List Article) :
    (∀ a, a ∈ searchStep search l ↔ a ∈ l ∧ (search ≠ "" →
        (strIncludes (strToLower a.title) (strToLower search) = true
         ∨ strIncludes (strToLower a.content) (strToLower search) = true)))
    ∧ searchStep "" l = l
    ∧ (∀ a, a ∈ legacyFiltered search none l ↔ a ∈ l ∧
        strIncludes (strToLower a.title) (strToLower search) = true)
    ∧ legacyFiltered "" none l = l := by
  refine ⟨?_, ?_, ?_, ?_⟩
  · intro a
    by_cases h : search = ""
    · subst h
      simp [searchStep]
    · simp [searchStep, h, List.mem_filter]
  · simp [searchStep]
  · intro a
    simp [legacyFiltered, List.mem_filter]
  · simp [legacyFiltered, List.filter_eq_self]
    intro a _
    exact strIncludes_empty (strToLower a.title)

/-- Witness for C4 (amended): a content-only match passes the part_010 search
step. -/
theorem search_filter_membership_witness :
    sampleContentMatch ∈ searchStep "needle" [sampleContentMatch] := by
  exact ((search_filter_membership "needle" [sampleContentMatch]).1
    sampleContentMatch).mpr
    ⟨List.mem_singleton.mpr rfl, fun _ => Or.inr (by decide)⟩

/-- The display label an article contributes to the `byNetwork` aggregate
(`src/pages/DashboardPage.tsx`, lines 130-133):
```
const name = a.network?.name ?? (a.networkId ? `Réseau #${a.networkId}` : null);
if (name) networkMap.set(name, (networkMap.get(name) ?? 0) + 1);
```
`none` means the article is excluded.  `a.networkId ?` is a JS truthiness
test, so a numeric id `0` yields no synthesized label; the final `if (name)`
drops an empty-string name. -/
def networkLabel (a : Article) : Option String :=
  let name? : Option String :=
    match a.network with
    | some n => some n.name
    | none =>
      match a.networkId with
      | some i => if i ≠ 0 then some ("Réseau #" ++ intToString i) else none
      | none => none
  match name? with
  | some s => if s ≠ "" then some s else none
  | none => none

/-- One article's step of the `byNetwork` fold. -/
def networkStep (m : List (String × Nat)) (a : Article) : List (String × Nat) :=
  match networkLabel a with
  | some k => mapSet m k ((assocGet m k).getD 0 + 1)
  | none => m

/-- The `networkMap` of `DashboardPage.tsx` (lines 129-133). -/
def networkFold (arts : List Article) : List (String × Nat) :=
  arts.foldl networkStep []

/-- The comparator `(a, b) => b[1] - a[1]` of the `byNetwork` sort: descending
count. -/
def byNetworkRel (p q : String × Nat) : Prop := q.2 ≤ p.2

instance : DecidableRel byNetworkRel :=
  fun p q => inferInstanceAs (Decidable (q.2 ≤ p.2))

instance : IsTotal (String × Nat) byNetworkRel :=
  ⟨fun p q => Nat.le_total q.2 p.2⟩

instance : IsTrans (String × Nat) byNetworkRel :=
  ⟨fun _ _ _ h1 h2 => Nat.le_trans h2 h1⟩

/-- `byNetwork` (`DashboardPage.tsx`, lines 134-136): entries of the map,
sorted by descending count, truncated to the top 5. -/
def byNetwork (arts : List Article) : List (String × Nat) :=
  (List.insertionSort byNetworkRel (networkFold arts)).take 5

theorem reseau_label_ne_empty (i : Int) : ("Réseau #" ++ intToString i) ≠ "" := by
  intro h
  have hlen := congrArg String.length h
  rw [String.length_append] at hlen
  have h8 : ("Réseau #" : String).length = 8 := by decide
  have h0 : ("" : String).length = 0 := by decide
  omega

theorem networkFold_get_general (arts : List Article) (m : List (String × Nat))
    (k : String) :
    (assocGet (arts.foldl networkStep m) k).getD 0
      = (assocGet m k).getD 0
        + arts.countP (fun a => networkLabel a == some k) := by
  induction arts generalizing m with
  | nil => simp
  | cons a t ih =>
    rw [List.foldl_cons, ih]
    cases hl : networkLabel a with
    | none => simp [networkStep, hl, List.countP_cons]
    | some k₀ =>
      by_cases hk : k₀ = k
      · subst hk
        rw [show assocGet (networkStep m a) k₀
              = some ((assocGet m k₀).getD 0 + 1) by
            rw [networkStep, hl]; exact assocGet_mapSet_self m k₀ _]
        simp [List.countP_cons, hl]
        omega
      · rw [show assocGet (networkStep m a) k = assocGet m k by
            rw [networkStep, hl]; exact assocGet_mapSet_ne m k₀ k _ (Ne.symm hk)]
        simp [List.countP_cons, hl, hk]

theorem networkFold_get (arts : List Article) (k : String) :
    (assocGet (networkFold arts) k).getD 0
      = arts.countP (fun a => networkLabel a == some k) := by
  rw [networkFold, networkFold_get_general]
  simp [assocGet]

/-- Concrete article with `networkId = 99` and no resolvable network name. -/
def sampleNet99 : Article :=
  { id := 3, title := "t", content := "c", status := ArticleStatus.published,
    featured := false, networkId := some 99 }

/-- Concrete article with `networkId = 0` and no resolvable network name. -/
def sampleNet0 : Article :=
  { id := 4, title := "t", content := "c", status := ArticleStatus.published,
    featured := false, networkId := some 0 }

/-- Counterexample to C5 as stated: the article with `networkId = 99` and no
network name is grouped under the French label `"Réseau #99"`, which differs
from the claimed label `"Network #99"`; and an article with the falsy network
id `0` is excluded from the aggregate entirely rather than grouped under a
synthesized label. -/
theorem byNetwork_label_counterexample :
    byNetwork [sampleNet99] = [("Réseau #99", 1)]
    ∧ ("Réseau #99" : String) ≠ "Network #99"
    ∧ networkLabel sampleNet99 ≠ some "Network #99"
    ∧ byNetwork [sampleNet0] = [] := by
  refine ⟨by decide, by decide, by decide, by decide⟩

/-- Claim C5 (amended): in the `byNetwork` aggregate an article with a
non-zero network id and no network object groups under the synthesized label
`"Réseau #<id>"` (so `networkId = 99` groups under exactly `"Réseau #99"`);
an article with no network object and an absent — or falsy `0` — id is
excluded; each label's count is the number of articles resolving to that
label; and the result is sorted by descending count and truncated to the top
5 groups. -/
theorem byNetwork_grouping (arts : List Article) :
    (∀ a i, a.network = none → a.networkId = some i → i ≠ 0 →
        networkLabel a = some ("Réseau #" ++ intToString i))
    ∧ (∀ a, a.network = none → (a.networkId = none ∨ a.networkId = some 0) →
        networkLabel a = none)
    ∧ (∀ k, (assocGet (networkFold arts) k).getD 0
        = arts.countP (fun a => networkLabel a == some k))
    ∧ List.Sorted byNetworkRel (byNetwork arts)
    ∧ (byNetwork arts).length ≤ 5 := by
  refine ⟨?_, ?_, networkFold_get arts, ?_, ?_⟩
  · intro a i h1 h2 h3
    simp [networkLabel, h1, h2, h3, reseau_label_ne_empty i]
  · rintro a h1 (h2 | h2) <;> simp [networkLabel, h1, h2]
  · exact List.Pairwise.sublist (List.take_sublist 5 _)
      (List.sorted_insertionSort byNetworkRel (networkFold arts))
  · calc (byNetwork arts).length
        = min 5 (List.insertionSort byNetworkRel (networkFold arts)).length :=
          List.length_take 5 _
      _ ≤ 5 := Nat.min_le_left 5 _

/-- Witness for C5 (amended), at the concrete inputs of the counterexample:
the synthesized label for id 99 and the sortedness of a concrete aggregate. -/
theorem byNetwork_grouping_witness :
    networkLabel sampleNet99 = some "Réseau #99"
    ∧ List.Sorted byNetworkRel (byNetwork [sampleNet99, sampleNet0]) := by
  obtain ⟨h1, -, -, h4, -⟩ := byNetwork_grouping [sampleNet99, sampleNet0]
  exact ⟨h1 sampleNet99 99 rfl rfl (by decide), h4⟩

/-- The sortable columns of the articles table (`type SortCol` in
`src/pages/ArticlesPage.tsx` and `src/__tests__/articleFilters.test.ts`). -/
inductive SortCol
  | title
  | createdAt
  | status
  | networkId
deriving DecidableEq

/-- Sort direction (`type SortDir`). -/
inductive SortDir
  | asc
  | desc
deriving DecidableEq

/-- The string key a sort column extracts from an article (`sortArticles` /
the sort step of part_010, lines 731-740): `title` and `status` read the
field, `networkId` is `String(a.networkId ?? '')`, and the default column is
`a.createdAt ?? ''`; missing values coerce to the empty string. -/
def sortKey (col : SortCol) (a : Article) : String :=
  match col with
  | .title => a.title
  | .status => statusToString a.status
  | .networkId =>
    match a.networkId with
    | some i => intToString i
    | none => ""
  | .createdAt => a.createdAt.getD ""

/-- The ascending comparator `av.localeCompare(bv)`, modelled as the total
lexicographic order on the key strings. -/
def keyLe (col : SortCol) (a b : Article) : Prop := sortKey col a ≤ sortKey col b

/-- The descending comparator `bv.localeCompare(av)`: the comparator sign is
flipped, not the output reversed. -/
def keyGe (col : SortCol) (a b : Article) : Prop := sortKey col b ≤ sortKey col a

/-- The strict form of the descending order, used to identify the two sorted
outputs when the keys are pairwise distinct. -/
def keyGt (col : SortCol) (a b : Article) : Prop := sortKey col b < sortKey col a

instance (col : SortCol) : DecidableRel (keyLe col) :=
  fun a b => inferInstanceAs (Decidable (sortKey col a ≤ sortKey col b))

instance (col : SortCol) : DecidableRel (keyGe col) :=
  fun a b => inferInstanceAs (Decidable (sortKey col b ≤ sortKey col a))

instance (col : SortCol) : IsTotal Article (keyLe col) :=
  ⟨fun a b => le_total (sortKey col a) (sortKey col b)⟩

instance (col : SortCol) : IsTrans Article (keyLe col) :=
  ⟨fun _ _ _ h1 h2 => le_trans h1 h2⟩

instance (col : SortCol) : IsTotal Article (keyGe col) :=
  ⟨fun a b => le_total (sortKey col b) (sortKey col a)⟩

instance (col : SortCol) : IsTrans Article (keyGe col) :=
  ⟨fun _ _ _ h1 h2 => le_trans h2 h1⟩

instance (col : SortCol) : IsAntisymm Article (keyGt col) :=
  ⟨fun _ _ h1 h2 => absurd h1 (lt_asymm h2)⟩

/-- `sortArticles` (`src/__tests__/articleFilters.test.ts`, lines 54-65, and
the sort step of part_010): `[...articles].sort(comparator)`, the comparator
comparing key strings, ascending or with flipped sign.  The source copies the
array first, so the input is never mutated; any comparison sort agrees with
this model whenever the keys are distinct. -/
def sortArticles (arts : List Article) (col : SortCol) : SortDir → List Article
  | .asc => List.insertionSort (keyLe col) arts
  | .desc => List.insertionSort (keyGe col) arts

theorem pairwise_keyGt_of_keyGe_nodup (col : SortCol) (l : List Article)
    (hs : l.Pairwise (keyGe col)) (hn : (l.map (sortKey col)).Nodup) :
    l.Pairwise (keyGt col) := by
  have hne : l.Pairwise (fun a b => sortKey col a ≠ sortKey col b) :=
    List.pairwise_map.mp hn
  exact (hs.and hne).imp (fun h => lt_of_le_of_ne h.1 (Ne.symm h.2))

/-- Claim C7: for every collection and every sort column, when no two
articles share a key string on that column, sorting descending yields exactly
the reverse of sorting ascending.  (The embedding is a pure function of the
copied list, so the input collection is never mutated.) -/
theorem sortArticles_desc_reverse (arts : List Article) (col : SortCol)
    (hnd : (arts.map (sortKey col)).Nodup) :
    sortArticles arts col SortDir.desc
      = (sortArticles arts col SortDir.asc).reverse := by
  have pd : List.Perm (sortArticles arts col SortDir.desc) arts :=
    List.perm_insertionSort (keyGe col) arts
  have pa : List.Perm (sortArticles arts col SortDir.asc) arts :=
    List.perm_insertionSort (keyLe col) arts
  have pr : List.Perm (sortArticles arts col SortDir.asc).reverse arts :=
    (List.reverse_perm _).trans pa
  have sd : (sortArticles arts col SortDir.desc).Pairwise (keyGe col) :=
    List.sorted_insertionSort (keyGe col) arts
  have sa : (sortArticles arts col SortDir.asc).Pairwise (keyLe col) :=
    List.sorted_insertionSort (keyLe col) arts
  have sr : (sortArticles arts col SortDir.asc).reverse.Pairwise (keyGe col) := by
    rw [List.pairwise_reverse]
    exact sa
  have nd : ((sortArticles arts col SortDir.desc).map (sortKey col)).Nodup :=
    ((pd.map (sortKey col)).symm).nodup hnd
  have nr : ((sortArticles arts col SortDir.asc).reverse.map (sortKey col)).Nodup :=
    ((pr.map (sortKey col)).symm).nodup hnd
  exact List.eq_of_perm_of_sorted (pd.trans pr.symm)
    (pairwise_keyGt_of_keyGe_nodup col _ sd nd)
    (pairwise_keyGt_of_keyGe_nodup col _ sr nr)

/-- Concrete articles with distinct titles. -/
def sampleSortA : Article :=
  { id := 1, title := "alpha", content := "x", status := ArticleStatus.draft,
    featured := false }

/-- Second concrete article with a distinct title. -/
def sampleSortB : Article :=
  { id := 2, title := "beta", content := "y", status := ArticleStatus.published,
    featured := false }

/-- Witness for C7: two articles with distinct titles satisfy the no-tie
hypothesis, and the reversal law holds for them. -/
theorem sortArticles_desc_reverse_witness :
    ([sampleSortA, sampleSortB].map (sortKey SortCol.title)).Nodup
    ∧ sortArticles [sampleSortA, sampleSortB] SortCol.title SortDir.desc
      = (sortArticles [sampleSortA, sampleSortB] SortCol.title SortDir.asc).reverse :=
  ⟨by decide, sortArticles_desc_reverse [sampleSortA, sampleSortB] SortCol.title
    (by decide)⟩

/-- JSON values as the list-endpoint normalizer sees them.  Numbers are
modelled as `Int` (their value is never inspected by `toArray`). -/
inductive Json where
  | null
  | bool (b : Bool)
  | num (n : Int)
  | str (s : String)
  | arr (items : List Json)
  | obj (fields : List (String × Json))

/-- The fixed, ordered candidate envelope keys of `toArray`
(`src/services/api.ts`, line 45). -/
def envelopeKeys : List String :=
  ["data", "items", "results", "articles", "categories", "notifications", "networks"]

/-- The `for (const key of [...])` loop body of `toArray`: return the value of
the first candidate key holding an array, else fall through to `[]`. -/
def findFirstArr : List String → List (String × Json) → List Json
  | [], _ => []
  | k :: ks, fs =>
    match assocGet fs k with
    | some (Json.arr xs) => xs
    | _ => findFirstArr ks fs

/-- `toArray` (`src/services/api.ts`, lines 42-52):
```
if (Array.isArray(data)) return data;
if (data && typeof data === 'object') {
  for (const key of ['data','items','results','articles','categories','notifications','networks']) {
    const val = data[key];
    if (Array.isArray(val)) return val;
  }
}
console.warn(...); return [];
```
(`null` fails the `data &&` guard; primitives fail the `typeof` guard.) -/
def toArray : Json → List Json
  | .arr xs => xs
  | .obj fs => findFirstArr envelopeKeys fs
  | _ => []

theorem findFirstArr_cons_arr (k : String) (ks : List String)
    (fs : List (String × Json)) (xs : List Json)
    (h : assocGet fs k = some (Json.arr xs)) :
    findFirstArr (k :: ks) fs = xs := by
  rw [findFirstArr, h]

theorem findFirstArr_cons_not_arr (k : String) (ks : List String)
    (fs : List (String × Json))
    (h : ∀ ys, assocGet fs k ≠ some (Json.arr ys)) :
    findFirstArr (k :: ks) fs = findFirstArr ks fs := by
  rw [findFirstArr]
  cases hv : assocGet fs k with
  | none => rfl
  | some v =>
    cases v with
    | arr ys => exact absurd hv (h ys)
    | null => rfl
    | bool b => rfl
    | num n => rfl
    | str s => rfl
    | obj gs => rfl

theorem findFirstArr_spec (ks : List String) (fs : List (String × Json)) :
    (∃ pre k post xs, ks = pre ++ k :: post
        ∧ (∀ k' ∈ pre, ∀ ys, assocGet fs k' ≠ some (Json.arr ys))
        ∧ assocGet fs k = some (Json.arr xs)
        ∧ findFirstArr ks fs = xs)
    ∨ ((∀ k ∈ ks, ∀ ys, assocGet fs k ≠ some (Json.arr ys))
        ∧ findFirstArr ks fs = []) := by
  induction ks with
  | nil => exact Or.inr ⟨by simp, rfl⟩
  | cons k ks ih =>
    by_cases harr : ∃ xs, assocGet fs k = some (Json.arr xs)
    · obtain ⟨xs, hx⟩ := harr
      exact Or.inl ⟨[], k, ks, xs, rfl, by simp, hx, findFirstArr_cons_arr k ks fs xs hx⟩
    · push_neg at harr
      have hred := findFirstArr_cons_not_arr k ks fs harr
      rcases ih with ⟨pre, k', post, xs, h1, h2, h3, h4⟩ | ⟨h1, h2⟩
      · refine Or.inl ⟨k :: pre, k', post, xs, by rw [h1]; rfl, ?_, h3,
          by rw [hred, h4]⟩
        intro k'' hk'' ys
        rcases List.mem_cons.mp hk'' with rfl | hm
        · exact harr ys
        · exact h2 k'' hm ys
      · refine Or.inr ⟨?_, by rw [hred, h2]⟩
        intro k'' hk'' ys
        rcases List.mem_cons.mp hk'' with rfl | hm
        · exact harr ys
        · exact h1 k'' hm ys

/-- Claim C8: the list-response normalizer `toArray`, on every JSON value:
returns an array argument unchanged (order preserved); on an object, returns
the value of the first candidate envelope key (in the fixed order of
`envelopeKeys`) holding an array, every earlier candidate holding no array;
returns the empty sequence when no candidate holds an array or when the value
is neither an array nor an object.  It is a total function, so it never
throws. -/
theorem toArray_spec (d : Json) :
    (∀ xs, d = Json.arr xs → toArray d = xs)
    ∧ (∀ fs, d = Json.obj fs →
        (∃ pre k post xs, envelopeKeys = pre ++ k :: post
            ∧ (∀ k' ∈ pre, ∀ ys, assocGet fs k' ≠ some (Json.arr ys))
            ∧ assocGet fs k = some (Json.arr xs)
            ∧ toArray d = xs)
        ∨ ((∀ k ∈ envelopeKeys, ∀ ys, assocGet fs k ≠ some (Json.arr ys))
            ∧ toArray d = []))
    ∧ ((∀ xs, d ≠ Json.arr xs) → (∀ fs, d ≠ Json.obj fs) → toArray d = []) := by
  refine ⟨?_, ?_, ?_⟩
  · rintro xs rfl
    rfl
  · rintro fs rfl
    exact findFirstArr_spec envelopeKeys fs
  · intro h1 h2
    cases d with
    | arr xs => exact absurd rfl (h1 xs)
    | obj fs => exact absurd rfl (h2 fs)
    | null => rfl
    | bool b => rfl
    | num n => rfl
    | str s => rfl

/-- Witness for C8: a bare array passes through unchanged. -/
theorem toArray_spec_witness :
    toArray (Json.arr [Json.num 1, Json.num 2]) = [Json.num 1, Json.num 2] :=
  (toArray_spec (Json.arr [Json.num 1, Json.num 2])).1 _ rfl

/-- The `error.response` of a failed axios call: HTTP status and the optional
`data.message` body field. -/
structure RawResponse where
  status : Nat
  dataMessage : Option String := none

/-- A raw axios error: optional response (absent on transport failure) and
the transport-level `error.message`. -/
structure RawError where
  response : Option RawResponse := none
  message : Option String := none

/-- JS `a || b` on strings: first truthy (non-empty) wins. -/
def orTruthy (o : Option String) (d : String) : String :=
  match o with
  | some s => if s = "" then d else s
  | none => d

/-- The interceptor's localized fallback message. -/
def fallbackMessage : String := "Une erreur est survenue"

/-- The message chain of the response interceptor (`src/services/api.ts`,
lines 30-33):
`error?.response?.data?.message || error?.message || 'Une erreur est survenue'`.
-/
def interceptMessage (e : RawError) : String :=
  orTruthy (e.response.bind (fun r => r.dataMessage)) (orTruthy e.message fallbackMessage)

/-- The classified error the interceptor rejects with: `new Error(msg)`
augmented with `err.status = error?.response?.status`
(`src/services/api.ts`, lines 34-37). -/
structure ClassifiedError where
  message : String
  status : Option Nat
deriving DecidableEq

/-- The response interceptor's error branch. -/
def interceptError (e : RawError) : ClassifiedError :=
  { message := interceptMessage e, status := e.response.map (fun r => r.status) }

/-- Snackbar severity, as used by the pages. -/
inductive Severity
  | success
  | error
  | warning
deriving DecidableEq

/-- A snackbar payload: the caller-visible outcome of a mutation error. -/
structure Snack where
  msg : String
  sev : Severity
deriving DecidableEq

/-- The specific conflict message of the categories page. -/
def conflictMessage : String :=
  "Impossible de supprimer: catégorie utilisée par des articles"

/-- `deleteMut.onError` of `src/pages/CategoriesPage.tsx` (part_005,
lines 238-245):
```
if (e.status === 409) {
  setSnack({ msg: 'Impossible de supprimer: catégorie utilisée par des articles', sev: 'warning' });
} else {
  setSnack({ msg: e.message, sev: 'error' });
}
```
-/
def deleteCategoryOnError (e : ClassifiedError) : Snack :=
  if e.status = some 409 then { msg := conflictMessage, sev := Severity.warning }
  else { msg := e.message, sev := Severity.error }

/-- Claim C9: a delete failing with response status 409 reaches the caller as
a classified error that preserves the numeric status, and the caller-visible
snack is the fixed specific conflict message (independent of the response
body), distinct from the interceptor's generic fallback message; every
non-409 failure instead takes the generic branch, whose message is the
classified error's own message and whose severity differs from the conflict
branch. -/
theorem delete_conflict_classified (raw : RawError) (r : RawResponse)
    (hresp : raw.response = some r) (h409 : r.status = 409) :
    (interceptError raw).status = some 409
    ∧ deleteCategoryOnError (interceptError raw)
        = { msg := conflictMessage, sev := Severity.warning }
    ∧ conflictMessage ≠ fallbackMessage
    ∧ (∀ e : ClassifiedError, e.status ≠ some 409 →
        deleteCategoryOnError e = { msg := e.message, sev := Severity.error })
    ∧ Severity.warning ≠ Severity.error := by
  have hst : (interceptError raw).status = some 409 := by
    simp [interceptError, hresp, h409]
  refine ⟨hst, ?_, by decide, ?_, by decide⟩
  · simp [deleteCategoryOnError, hst]
  · intro e he
    simp [deleteCategoryOnError, he]

/-- Witness for C9: a concrete 409 delete failure yields the conflict snack,
while a concrete 500 failure with no body message yields the generic snack
with the fallback message. -/
theorem delete_conflict_classified_witness :
    deleteCategoryOnError (interceptError { response := some { status := 409 } })
      = { msg := conflictMessage, sev := Severity.warning }
    ∧ deleteCategoryOnError (interceptError { response := some { status := 500 } })
      = { msg := fallbackMessage, sev := Severity.error } := by
  obtain ⟨-, h2, -, h4, -⟩ := delete_conflict_classified
    { response := some { status := 409 } } { status := 409 } rfl rfl
  refine ⟨h2, ?_⟩
  rw [h4 (interceptError { response := some { status := 500 } }) (by decide)]
  rfl

end Editorial
